import Mathlib

/-
Shallow embedding of the color-palette generator embedded in
kitty/.config/kitty/generate_palette.py (the inner extraction script,
using the later of each pair of duplicate Python definitions, which is
the one Python keeps).  Colors are integer RGB triples; the script's
floating-point luminance arithmetic is embedded over the reals.
-/

namespace PaletteGen

/-- A color as the script handles it: a tuple of three integer channels. -/
abbrev Color := ℤ × ℤ × ℤ

/-- The data-model range of a channel triple: every channel in [0,255]. -/
def InRange (c : Color) : Prop :=
  0 ≤ c.1 ∧ c.1 ≤ 255 ∧ 0 ≤ c.2.1 ∧ c.2.1 ≤ 255 ∧ 0 ≤ c.2.2 ∧ c.2.2 ≤ 255

instance (c : Color) : Decidable (InRange c) := by
  unfold InRange; infer_instance

/-- Per-channel sRGB transfer used by the luminance computation:
the branch `x/12.92 if x <= 0.03928 else ((x + 0.055)/1.055) ** 2.4`. -/
noncomputable def gammaExpand (x : ℝ) : ℝ :=
  if x ≤ 0.03928 then x / 12.92 else ((x + 0.055) / 1.055) ^ (2.4 : ℝ)

/-- Embedding of `get_luminance(rgb)`: WCAG relative luminance. -/
noncomputable def get_luminance (c : Color) : ℝ :=
  0.2126 * gammaExpand ((c.1 : ℝ) / 255) + 0.7152 * gammaExpand ((c.2.1 : ℝ) / 255) +
    0.0722 * gammaExpand ((c.2.2 : ℝ) / 255)

/-- Embedding of `get_contrast_ratio(rgb1, rgb2)`. -/
noncomputable def get_contrast_ratio (c1 c2 : Color) : ℝ :=
  (max (get_luminance c1) (get_luminance c2) + 0.05) /
    (min (get_luminance c1) (get_luminance c2) + 0.05)

/-- The per-channel clamp `max(0, min(255, c))` of `adjust_color_for_contrast`. -/
def clampChannel (c : ℤ) : ℤ := max 0 (min 255 c)

/-- Channel-wise clamp of a color to [0,255]. -/
def clampColor (c : Color) : Color := (clampChannel c.1, clampChannel c.2.1, clampChannel c.2.2)

/-- Adding the same offset to every channel, as in `c + direction * step`. -/
def offsetColor (c : Color) (d : ℤ) : Color := (c.1 + d, c.2.1 + d, c.2.2 + d)

/-- The `for _ in range(8)` search loop inside `adjust_color_for_contrast`,
with the remaining iteration count first and the loop state
(`adjusted`, `step`, `direction`) as the other arguments. -/
noncomputable def adjust_loop (background : Color) (target_ratio : ℝ) :
    ℕ → Color → ℕ → ℤ → Color
  | 0, adjusted, _, _ => adjusted
  | n + 1, adjusted, step, direction =>
    let test_color := clampColor (offsetColor adjusted (direction * (step : ℤ)))
    if target_ratio ≤ get_contrast_ratio test_color background then
      adjust_loop background target_ratio n test_color (step / 2) (-direction)
    else
      adjust_loop background target_ratio n adjusted (step / 2) direction

/-- Embedding of `adjust_color_for_contrast(color, background, target_ratio, lighten)`
(the second definition in the file, the one Python keeps). -/
noncomputable def adjust_color_for_contrast (color background : Color) (target_ratio : ℝ)
    (lighten : Bool) : Color :=
  if target_ratio ≤ get_contrast_ratio color background then color
  else clampColor (adjust_loop background target_ratio 8 color 128 (if lighten then 1 else -1))

/-- One lowercase hexadecimal digit for a value in [0,15]. -/
def hexDigit (n : ℕ) : Char := if n < 10 then Char.ofNat (48 + n) else Char.ofNat (87 + n)

/-- Two lowercase hexadecimal digits, Python's `"{:02x}"` on values in [0,255]. -/
def byteHex (n : ℕ) : String := String.mk [hexDigit (n / 16), hexDigit (n % 16)]

/-- Embedding of `rgb_to_hex(rgb)` = `"#{:02x}{:02x}{:02x}".format(...)`
for channel values in [0,255]. -/
def rgb_to_hex (c : Color) : String :=
  "#" ++ byteHex c.1.toNat ++ byteHex c.2.1.toNat ++ byteHex c.2.2.toNat

/-- Numeric value of a single hexadecimal digit, as `int(s, 16)` assigns it. -/
def hexVal (c : Char) : ℕ :=
  if 48 ≤ c.toNat ∧ c.toNat ≤ 57 then c.toNat - 48
  else if 97 ≤ c.toNat ∧ c.toNat ≤ 102 then c.toNat - 87
  else if 65 ≤ c.toNat ∧ c.toNat ≤ 70 then c.toNat - 55
  else 0

/-- Embedding of `hex_to_rgb(hex_color)`: strip every leading `#`
(Python's `lstrip('#')`), then read three two-digit groups at offsets 0, 2, 4. -/
def hex_to_rgb (s : String) : Color :=
  let t := s.data.dropWhile (· = '#')
  ((16 * hexVal (t.getD 0 '0') + hexVal (t.getD 1 '0') : ℕ),
   (16 * hexVal (t.getD 2 '0') + hexVal (t.getD 3 '0') : ℕ),
   (16 * hexVal (t.getD 4 '0') + hexVal (t.getD 5 '0') : ℕ))

/-- The flag `lighten = bg_lum < 0.5` computed by `ensure_readable_colors`. -/
noncomputable def lighten_for (background : Color) : Bool :=
  decide (get_luminance background < 0.5)

/-- Embedding of Python's `key.startswith(pre)`. -/
def startsWith (key pre : String) : Bool := pre.data.isPrefixOf key.data

/-- The per-entry body of the loop in `ensure_readable_colors` (two-argument
version): keys `color*` and `foreground` are corrected when their contrast
with the background is below `min_contrast = 4.5`, all other keys pass through. -/
noncomputable def ensure_value (background : Color) (key hex_color : String) : String :=
  if startsWith key "color" ∨ key = "foreground" then
    let rgb := hex_to_rgb hex_color
    if get_contrast_ratio rgb background < 4.5 then
      rgb_to_hex (adjust_color_for_contrast rgb background 4.5 (lighten_for background))
    else hex_color
  else hex_color

/-- A scheme, as the script's dict of key/hex-string pairs in insertion order. -/
abbrev Scheme := List (String × String)

/-- Embedding of `ensure_readable_colors(colors, background)` (the later,
two-argument definition, the one Python keeps). -/
noncomputable def ensure_readable_colors (colors : Scheme) (background : Color) : Scheme :=
  colors.map fun kv => (kv.1, ensure_value background kv.1 kv.2)

/-- The Euclidean RGB distance `((r1-r2)**2 + (g1-g2)**2 + (b1-b2)**2) ** 0.5`
computed inside `is_too_similar`. -/
noncomputable def color_distance (c1 c2 : Color) : ℝ :=
  Real.sqrt (((c1.1 - c2.1 : ℤ) : ℝ) ^ 2 + ((c1.2.1 - c2.2.1 : ℤ) : ℝ) ^ 2 +
    ((c1.2.2 - c2.2.2 : ℤ) : ℝ) ^ 2)

/-- Embedding of `is_too_similar(color1, color2, threshold=20)`. -/
noncomputable def is_too_similar (c1 c2 : Color) (threshold : ℝ := 20) : Prop :=
  color_distance c1 c2 < threshold

open Classical in
/-- The similar-color filtering loop of `extract_palette`: walk the dominance
ordered candidates, accept a color only when it is not too similar to any
already accepted one, and stop as soon as `num_colors` colors are kept. -/
noncomputable def filter_palette (num_colors : ℕ) : List Color → List Color → List Color
  | [], filtered => filtered
  | color :: rest, filtered =>
    if ∃ existing ∈ filtered, is_too_similar color existing then
      filter_palette num_colors rest filtered
    else if num_colors ≤ filtered.length + 1 then filtered ++ [color]
    else filter_palette num_colors rest (filtered ++ [color])

/-- Embedding of `extract_palette(image_path, num_colors=16)`.  Image decoding,
resampling and K-means clustering are delegated to external libraries (PIL,
scikit-learn); their outcome enters here as an `Except` value: an exception
makes the function return `None` (the `except` branch), otherwise the
dominance-sorted centroid list is filtered through the dedup loop. -/
noncomputable def extract_palette (clustered : Except String (List Color))
    (num_colors : ℕ := 16) : Option (List Color) :=
  match clustered with
  | .error _ => none
  | .ok palette => some (filter_palette num_colors palette [])

/-- Bool comparison by luminance used to sort the palette
(`palette_with_lum.sort(key=lambda x: x[1])`). -/
noncomputable def lumLE (a b : Color) : Bool := decide (get_luminance a ≤ get_luminance b)

/-- Channel-wise `tuple(min(255, c + k) for c in color)`. -/
def brightenColor (c : Color) (k : ℤ) : Color :=
  (min 255 (c.1 + k), min 255 (c.2.1 + k), min 255 (c.2.2 + k))

/-- Embedding of the helper `get_color(idx, default_rgb, brighten=0)` inside
`generate_terminal_colors`: index into the (unsorted) palette, wrapping an
out-of-range index via `idx % len(palette)`; `default_rgb` is accepted but
never used by the source. -/
def get_color (palette : List Color) (idx : ℕ) (default_rgb : Color)
    (brighten : ℤ := 0) : Color :=
  let base := if idx < palette.length then palette.getD idx (0, 0, 0)
    else palette.getD (idx % palette.length) (0, 0, 0)
  if 0 < brighten then brightenColor base brighten else base

/-- Embedding of `generate_terminal_colors(palette)`: `None` when the palette
has fewer than two entries, otherwise the 22-key scheme, with `background` the
lowest-luminance entry and `foreground` the highest-luminance entry of the
stable luminance sort. -/
noncomputable def generate_terminal_colors (palette : List Color) : Option Scheme :=
  if palette.length < 2 then none
  else
    let sortedPalette := palette.mergeSort lumLE
    let background := sortedPalette.headD (0, 0, 0)
    let foreground := sortedPalette.getLastD (0, 0, 0)
    some [("color0", rgb_to_hex background),
          ("color1", rgb_to_hex (get_color palette 1 (204, 102, 102))),
          ("color2", rgb_to_hex (get_color palette 2 (153, 204, 102))),
          ("color3", rgb_to_hex (get_color palette 3 (204, 204, 102))),
          ("color4", rgb_to_hex (get_color palette 4 (102, 153, 204))),
          ("color5", rgb_to_hex (get_color palette 5 (204, 102, 204))),
          ("color6", rgb_to_hex (get_color palette 6 (102, 204, 204))),
          ("color7", rgb_to_hex foreground),
          ("color8", rgb_to_hex (brightenColor background 50)),
          ("color9", rgb_to_hex (get_color palette 1 (255, 132, 132) 30)),
          ("color10", rgb_to_hex (get_color palette 2 (183, 255, 132) 30)),
          ("color11", rgb_to_hex (get_color palette 3 (255, 255, 132) 30)),
          ("color12", rgb_to_hex (get_color palette 4 (132, 183, 255) 30)),
          ("color13", rgb_to_hex (get_color palette 5 (255, 132, 255) 30)),
          ("color14", rgb_to_hex (get_color palette 6 (132, 255, 255) 30)),
          ("color15", rgb_to_hex (brightenColor foreground 30)),
          ("background", rgb_to_hex background),
          ("foreground", rgb_to_hex foreground),
          ("cursor", rgb_to_hex foreground),
          ("cursor_text_color", rgb_to_hex background),
          ("selection_background", rgb_to_hex (brightenColor background 40)),
          ("selection_foreground", rgb_to_hex foreground)]

/-- The inner script's `main` after the clustering step: halt (`sys.exit(1)`,
modelled as `none`) when extraction failed or produced a falsy palette, halt
when scheme synthesis failed, otherwise contrast-correct the scheme against
the parsed `background` entry. -/
noncomputable def run_extraction (clustered : Except String (List Color)) : Option Scheme :=
  match extract_palette clustered 16 with
  | none => none
  | some [] => none
  | some palette =>
    match generate_terminal_colors palette with
    | none => none
    | some colors =>
      some (ensure_readable_colors colors (hex_to_rgb ((colors.lookup "background").getD "")))

/-- One iteration of the correction search as the specification words it:
form a candidate by applying `direction * step` to every channel of the
current best color, clamped to [0,255]; if the candidate's ratio meets the
target it becomes the new best and the step is halved and the direction
flipped, otherwise the step is halved and the direction kept. -/
noncomputable def specSearchStep (background : Color) (target : ℝ)
    (st : Color × ℕ × ℤ) : Color × ℕ × ℤ :=
  let best := st.1
  let step := st.2.1
  let direction := st.2.2
  let candidate := clampColor (offsetColor best (direction * (step : ℤ)))
  if target ≤ get_contrast_ratio candidate background then (candidate, step / 2, -direction)
  else (best, step / 2, direction)

/-- The contrast-correction algorithm as the specification words it: return the
color unchanged when it already meets the target; otherwise pick the direction
once from the background luminance (+1 below 0.5, -1 otherwise), start with
step 128, run exactly 8 iterations of `specSearchStep`, and return the best
color so far clamped to [0,255] even if the target was never reached. -/
noncomputable def adjustColorSpec (color background : Color) (target : ℝ) : Color :=
  if target ≤ get_contrast_ratio color background then color
  else
    let direction : ℤ := if get_luminance background < 0.5 then 1 else -1
    clampColor ((specSearchStep background target)^[8] (color, 128, direction)).1

lemma gammaExpand_nonneg {x : ℝ} (hx : 0 ≤ x) : 0 ≤ gammaExpand x := by
  unfold gammaExpand
  split
  · positivity
  · exact Real.rpow_nonneg (by positivity) _

lemma gammaExpand_le_one {x : ℝ} (hx0 : 0 ≤ x) (hx1 : x ≤ 1) : gammaExpand x ≤ 1 := by
  unfold gammaExpand
  split
  · rw [div_le_one (by norm_num)]
    linarith
  · apply Real.rpow_le_one (by positivity) ?_ (by norm_num)
    rw [div_le_one (by norm_num)]
    linarith

lemma gammaExpand_zero : gammaExpand 0 = 0 := by
  unfold gammaExpand
  rw [if_pos (by norm_num)]
  norm_num

lemma gammaExpand_one : gammaExpand 1 = 1 := by
  unfold gammaExpand
  rw [if_neg (by norm_num), show ((1 : ℝ) + 0.055) / 1.055 = 1 by norm_num, Real.one_rpow]

lemma get_luminance_nonneg {c : Color} (h : InRange c) : 0 ≤ get_luminance c := by
  obtain ⟨h1, h2, h3, h4, h5, h6⟩ := h
  have g1 := gammaExpand_nonneg (x := (c.1 : ℝ) / 255) (by positivity)
  have g2 := gammaExpand_nonneg (x := (c.2.1 : ℝ) / 255) (by positivity)
  have g3 := gammaExpand_nonneg (x := (c.2.2 : ℝ) / 255) (by positivity)
  unfold get_luminance
  nlinarith

lemma get_luminance_le_one {c : Color} (h : InRange c) : get_luminance c ≤ 1 := by
  obtain ⟨h1, h2, h3, h4, h5, h6⟩ := h
  have e1 : ((c.1 : ℝ)) / 255 ≤ 1 := by
    rw [div_le_one (by norm_num)]
    exact_mod_cast h2
  have e2 : ((c.2.1 : ℝ)) / 255 ≤ 1 := by
    rw [div_le_one (by norm_num)]
    exact_mod_cast h4
  have e3 : ((c.2.2 : ℝ)) / 255 ≤ 1 := by
    rw [div_le_one (by norm_num)]
    exact_mod_cast h6
  have g1 := gammaExpand_le_one (x := (c.1 : ℝ) / 255) (by positivity) e1
  have g2 := gammaExpand_le_one (x := (c.2.1 : ℝ) / 255) (by positivity) e2
  have g3 := gammaExpand_le_one (x := (c.2.2 : ℝ) / 255) (by positivity) e3
  unfold get_luminance
  nlinarith

/-- C8: for every color whose three channels lie in [0,255], the relative
luminance lies in [0,1]; the luminance of pure black is exactly 0 and the
luminance of pure white is exactly 1. -/
theorem get_luminance_bounds :
    (∀ c : Color, InRange c → 0 ≤ get_luminance c ∧ get_luminance c ≤ 1) ∧
      get_luminance (0, 0, 0) = 0 ∧ get_luminance (255, 255, 255) = 1 := by
  refine ⟨fun c h => ⟨get_luminance_nonneg h, get_luminance_le_one h⟩, ?_, ?_⟩
  · unfold get_luminance
    norm_num [gammaExpand_zero]
  · unfold get_luminance
    norm_num [gammaExpand_one]

/-- Witness for C8 at the concrete color (10,10,10). -/
theorem get_luminance_bounds_witness :
    0 ≤ get_luminance (10, 10, 10) ∧ get_luminance (10, 10, 10) ≤ 1 :=
  get_luminance_bounds.1 (10, 10, 10) (by decide)

/-- C9: the WCAG contrast ratio is commutative in its two color arguments. -/
theorem get_contrast_ratio_comm (A B : Color) :
    get_contrast_ratio A B = get_contrast_ratio B A := by
  unfold get_contrast_ratio
  rw [max_comm, min_comm]

lemma ensure_value_of_not_eligible {k : String} (bg : Color) (v : String)
    (h1 : startsWith k "color" = false) (h2 : k ≠ "foreground") :
    ensure_value bg k v = v := by
  unfold ensure_value
  rw [if_neg]
  intro hc
  rcases hc with hc | hc
  · rw [h1] at hc
    exact Bool.false_ne_true hc
  · exact h2 hc

lemma lookup_ensure_readable (m : Scheme) (bg : Color) (k : String) :
    (ensure_readable_colors m bg).lookup k = (m.lookup k).map (ensure_value bg k) := by
  induction m with
  | nil => rfl
  | cons kv rest ih =>
    rcases kv with ⟨key, val⟩
    unfold ensure_readable_colors at ih ⊢
    cases hk : k == key with
    | true =>
      have : k = key := by simpa using hk
      subst this
      simp [List.lookup, hk]
    | false => simpa [List.lookup, hk] using ih

/-- C6: `ensure_readable_colors` rewrites only the `color*` keys and
`foreground`; every other key (such as `background`, `cursor`,
`cursor_text_color`, `selection_background`, `selection_foreground`) is bound
in the output to exactly the value it had in the input. -/
theorem ensure_readable_colors_frame (m : Scheme) (bg : Color) (k : String)
    (h1 : startsWith k "color" = false) (h2 : k ≠ "foreground") :
    (ensure_readable_colors m bg).lookup k = m.lookup k := by
  rw [lookup_ensure_readable]
  cases h : m.lookup k with
  | none => rfl
  | some v => simp [ensure_value_of_not_eligible bg v h1 h2]

/-- Witness for C6 at the key `selection_background`. -/
theorem ensure_readable_colors_frame_witness :
    (ensure_readable_colors [("selection_background", "#0a0a0a")] (0, 0, 0)).lookup
        "selection_background" =
      ([("selection_background", "#0a0a0a")] : Scheme).lookup "selection_background" :=
  ensure_readable_colors_frame [("selection_background", "#0a0a0a")] (0, 0, 0)
    "selection_background" (by decide) (by decide)

/-- C7: a decode or clustering exception makes `extract_palette` return
`None` and the pipeline halt with no scheme emitted, and a palette with
fewer than two entries makes `generate_terminal_colors` report failure by
returning `None`. -/
theorem extraction_failure_halts :
    (∀ (e : String) (n : ℕ), extract_palette (Except.error e) n = none) ∧
      (∀ e : String, run_extraction (Except.error e) = none) ∧
      (∀ p : List Color, p.length < 2 → generate_terminal_colors p = none) := by
  refine ⟨fun e n => rfl, fun e => rfl, fun p hp => ?_⟩
  unfold generate_terminal_colors
  rw [if_pos hp]

/-- Witness for C7 at a concrete one-element palette. -/
theorem extraction_failure_halts_witness :
    generate_terminal_colors [(0, 0, 0)] = none :=
  extraction_failure_halts.2.2 [(0, 0, 0)] (by decide)

lemma adjust_loop_eq_iterate (bg : Color) (t : ℝ) :
    ∀ (n : ℕ) (best : Color) (step : ℕ) (dir : ℤ),
      adjust_loop bg t n best step dir = ((specSearchStep bg t)^[n] (best, step, dir)).1 := by
  intro n
  induction n with
  | zero => intro best step dir; rfl
  | succ n ih =>
    intro best step dir
    have hs : specSearchStep bg t (best, step, dir) =
        if t ≤ get_contrast_ratio (clampColor (offsetColor best (dir * (step : ℤ)))) bg then
          (clampColor (offsetColor best (dir * (step : ℤ))), step / 2, -dir)
        else (best, step / 2, dir) := rfl
    rw [Function.iterate_succ_apply, hs]
    show (if t ≤ get_contrast_ratio (clampColor (offsetColor best (dir * (step : ℤ)))) bg then
        adjust_loop bg t n (clampColor (offsetColor best (dir * (step : ℤ)))) (step / 2) (-dir)
      else adjust_loop bg t n best (step / 2) dir) = _
    by_cases h : t ≤ get_contrast_ratio (clampColor (offsetColor best (dir * (step : ℤ)))) bg
    · rw [if_pos h, if_pos h, ih]
    · rw [if_neg h, if_neg h, ih]

/-- C1: with the lighten flag computed the way the pipeline computes it
(background luminance below 0.5), `adjust_color_for_contrast` coincides with
the algorithm exactly as the specification words it: unchanged return when the
target is already met, direction +1 on a dark background and -1 otherwise,
initial step 128, exactly 8 halve-and-flip-on-accept iterations, and the
clamped best-so-far color as the result even if the target was never met. -/
theorem adjust_color_for_contrast_follows_spec (color background : Color) (target : ℝ) :
    adjust_color_for_contrast color background target (lighten_for background) =
      adjustColorSpec color background target := by
  unfold adjust_color_for_contrast adjustColorSpec lighten_for
  by_cases h : target ≤ get_contrast_ratio color background
  · rw [if_pos h, if_pos h]
  · rw [if_neg h, if_neg h, adjust_loop_eq_iterate]
    by_cases hl : get_luminance background < 0.5
    · simp [hl]
    · simp [hl]

lemma clampChannel_mem (x : ℤ) : 0 ≤ clampChannel x ∧ clampChannel x ≤ 255 :=
  ⟨le_max_left 0 _, max_le (by norm_num) (min_le_left _ _)⟩

lemma clampColor_InRange (c : Color) : InRange (clampColor c) := by
  obtain ⟨a1, a2⟩ := clampChannel_mem c.1
  obtain ⟨b1, b2⟩ := clampChannel_mem c.2.1
  obtain ⟨d1, d2⟩ := clampChannel_mem c.2.2
  exact ⟨a1, a2, b1, b2, d1, d2⟩

lemma clampChannel_of_mem {x : ℤ} (h0 : 0 ≤ x) (h1 : x ≤ 255) : clampChannel x = x := by
  unfold clampChannel
  rw [min_eq_right h1, max_eq_right h0]

lemma clampColor_of_InRange {c : Color} (h : InRange c) : clampColor c = c := by
  obtain ⟨h1, h2, h3, h4, h5, h6⟩ := h
  unfold clampColor
  rw [clampChannel_of_mem h1 h2, clampChannel_of_mem h3 h4, clampChannel_of_mem h5 h6]

lemma adjust_loop_invariant (bg : Color) (t : ℝ) (c0 : Color) :
    ∀ (n : ℕ) (best : Color) (step : ℕ) (dir : ℤ),
      (best = c0 ∨ t ≤ get_contrast_ratio best bg) →
      (adjust_loop bg t n best step dir = c0 ∨
        t ≤ get_contrast_ratio (adjust_loop bg t n best step dir) bg) := by
  intro n
  induction n with
  | zero => intro best step dir h; exact h
  | succ n ih =>
    intro best step dir h
    show (if t ≤ get_contrast_ratio (clampColor (offsetColor best (dir * (step : ℤ)))) bg then
        adjust_loop bg t n (clampColor (offsetColor best (dir * (step : ℤ)))) (step / 2) (-dir)
      else adjust_loop bg t n best (step / 2) dir) = c0 ∨
      t ≤ get_contrast_ratio (if t ≤
          get_contrast_ratio (clampColor (offsetColor best (dir * (step : ℤ)))) bg then
        adjust_loop bg t n (clampColor (offsetColor best (dir * (step : ℤ)))) (step / 2) (-dir)
      else adjust_loop bg t n best (step / 2) dir) bg
    by_cases hacc : t ≤ get_contrast_ratio (clampColor (offsetColor best (dir * (step : ℤ)))) bg
    · rw [if_pos hacc]
      exact ih _ (step / 2) (-dir) (Or.inr hacc)
    · rw [if_neg hacc]
      exact ih best (step / 2) dir h

lemma adjust_loop_InRange (bg : Color) (t : ℝ) :
    ∀ (n : ℕ) (best : Color) (step : ℕ) (dir : ℤ),
      InRange best → InRange (adjust_loop bg t n best step dir) := by
  intro n
  induction n with
  | zero => intro best step dir h; exact h
  | succ n ih =>
    intro best step dir h
    show InRange
      (if t ≤ get_contrast_ratio (clampColor (offsetColor best (dir * (step : ℤ)))) bg then
        adjust_loop bg t n (clampColor (offsetColor best (dir * (step : ℤ)))) (step / 2) (-dir)
      else adjust_loop bg t n best (step / 2) dir)
    by_cases hacc : t ≤ get_contrast_ratio (clampColor (offsetColor best (dir * (step : ℤ)))) bg
    · rw [if_pos hacc]
      exact ih _ (step / 2) (-dir) (clampColor_InRange _)
    · rw [if_neg hacc]
      exact ih best (step / 2) dir h

lemma contrast_ratio_self {A : Color} (h : InRange A) : get_contrast_ratio A A = 1 := by
  unfold get_contrast_ratio
  rw [max_self, min_self]
  have h0 := get_luminance_nonneg h
  have h5 : (0 : ℝ) < get_luminance A + 0.05 := by linarith
  rw [div_self (ne_of_gt h5)]

/-- C2: when a color C has contrast below 4.5 against background B, the color
returned by `adjust_color_for_contrast(C, B, 4.5, lighten)` never has smaller
measured contrast against B than C itself had: every accepted candidate meets
the 4.5 target, and with no accepted candidate C is returned unchanged. -/
theorem adjust_never_decreases_contrast (C B : Color) (lighten : Bool)
    (hC : InRange C) (h : get_contrast_ratio C B < 4.5) :
    get_contrast_ratio C B ≤
      get_contrast_ratio (adjust_color_for_contrast C B 4.5 lighten) B := by
  unfold adjust_color_for_contrast
  by_cases h0 : (4.5 : ℝ) ≤ get_contrast_ratio C B
  · rw [if_pos h0]
  · rw [if_neg h0]
    have hinv :=
      adjust_loop_invariant B 4.5 C 8 C 128 (if lighten then 1 else -1) (Or.inl rfl)
    have hrange := adjust_loop_InRange B 4.5 8 C 128 (if lighten then 1 else -1) hC
    rw [clampColor_of_InRange hrange]
    rcases hinv with h1 | h1
    · rw [h1]
    · linarith

/-- Witness for C2 at C = B = (0,0,0), whose self-contrast is 1 < 4.5. -/
theorem adjust_never_decreases_contrast_witness :
    get_contrast_ratio (0, 0, 0) (0, 0, 0) ≤
      get_contrast_ratio (adjust_color_for_contrast (0, 0, 0) (0, 0, 0) 4.5 true) (0, 0, 0) :=
  adjust_never_decreases_contrast (0, 0, 0) (0, 0, 0) true (by decide)
    (by rw [contrast_ratio_self (by decide)]; norm_num)

lemma color_distance_comm (a b : Color) : color_distance a b = color_distance b a := by
  unfold color_distance
  congr 1
  push_cast
  ring

lemma filter_palette_spec (n : ℕ) :
    ∀ cands acc : List Color, acc.length < n →
      List.Pairwise (fun a b => ¬ is_too_similar a b) acc →
      List.Pairwise (fun a b => ¬ is_too_similar a b) (filter_palette n cands acc) ∧
        (filter_palette n cands acc).length ≤ n := by
  intro cands
  induction cands with
  | nil => intro acc h1 h2; exact ⟨h2, le_of_lt h1⟩
  | cons c rest ih =>
    intro acc h1 h2
    unfold filter_palette
    by_cases hs : ∃ existing ∈ acc, is_too_similar c existing
    · rw [if_pos hs]
      exact ih acc h1 h2
    · rw [if_neg hs]
      push_neg at hs
      have hpair : List.Pairwise (fun a b => ¬ is_too_similar a b) (acc ++ [c]) := by
        rw [List.pairwise_append]
        refine ⟨h2, List.pairwise_singleton _ _, ?_⟩
        intro a ha b hb
        rw [List.mem_singleton] at hb
        subst hb
        intro hcontra
        apply hs a ha
        unfold is_too_similar at hcontra ⊢
        rwa [color_distance_comm]
      by_cases hn : n ≤ acc.length + 1
      · rw [if_pos hn]
        refine ⟨hpair, ?_⟩
        rw [List.length_append, List.length_singleton]
        omega
      · rw [if_neg hn]
        apply ih
        · rw [List.length_append, List.length_singleton]
          omega
        · exact hpair

/-- C4: the deduplicated palette built by the filtering loop of
`extract_palette` (started on an empty accumulator, with at least one color
requested) is pairwise at Euclidean RGB distance at least 20, and it never
holds more than `num_colors` entries. -/
theorem filter_palette_pairwise (cands : List Color) (n : ℕ) (hn : 1 ≤ n) :
    List.Pairwise (fun a b => 20 ≤ color_distance a b) (filter_palette n cands []) ∧
      (filter_palette n cands []).length ≤ n := by
  have h := filter_palette_spec n cands [] (by simp only [List.length_nil]; omega) List.Pairwise.nil
  refine ⟨h.1.imp (fun hab => ?_), h.2⟩
  unfold is_too_similar at hab
  exact not_lt.1 hab

/-- Witness for C4 at the default color count 16. -/
theorem filter_palette_pairwise_witness :
    List.Pairwise (fun a b => 20 ≤ color_distance a b)
        (filter_palette 16 [(0, 0, 0), (1, 1, 1), (200, 0, 0)] []) ∧
      (filter_palette 16 [(0, 0, 0), (1, 1, 1), (200, 0, 0)] []).length ≤ 16 :=
  filter_palette_pairwise [(0, 0, 0), (1, 1, 1), (200, 0, 0)] 16 (by decide)

/-- A lowercase hexadecimal digit: `0`-`9` or `a`-`f`. -/
def isLowerHexDigit (c : Char) : Bool :=
  (48 ≤ c.toNat ∧ c.toNat ≤ 57) ∨ (97 ≤ c.toNat ∧ c.toNat ≤ 102)

/-- A well-formed scheme value: the 7-character string `#rrggbb` with six
lowercase hexadecimal digits after the leading `#`. -/
def ValidHex (s : String) : Bool :=
  (s.data.take 1 == ['#']) && s.data.length == 7 && (s.data.drop 1).all isLowerHexDigit

lemma isLowerHexDigit_hexDigit {n : ℕ} (h : n < 16) : isLowerHexDigit (hexDigit n) = true := by
  interval_cases n <;> decide

lemma hexVal_hexDigit {n : ℕ} (h : n < 16) : hexVal (hexDigit n) = n := by
  interval_cases n <;> decide

lemma hexDigit_ne_hash {n : ℕ} (h : n < 16) : hexDigit n ≠ '#' := by
  interval_cases n <;> decide

lemma data_rgb_to_hex (c : Color) :
    (rgb_to_hex c).data = '#' :: [hexDigit (c.1.toNat / 16), hexDigit (c.1.toNat % 16),
      hexDigit (c.2.1.toNat / 16), hexDigit (c.2.1.toNat % 16),
      hexDigit (c.2.2.toNat / 16), hexDigit (c.2.2.toNat % 16)] := by
  unfold rgb_to_hex byteHex
  rw [String.data_append, String.data_append, String.data_append]
  rfl

lemma ValidHex_rgb_to_hex {c : Color} (h : InRange c) : ValidHex (rgb_to_hex c) = true := by
  obtain ⟨h1, h2, h3, h4, h5, h6⟩ := h
  have d1 : isLowerHexDigit (hexDigit (c.1.toNat / 16)) = true :=
    isLowerHexDigit_hexDigit (by omega)
  have d2 : isLowerHexDigit (hexDigit (c.1.toNat % 16)) = true :=
    isLowerHexDigit_hexDigit (by omega)
  have d3 : isLowerHexDigit (hexDigit (c.2.1.toNat / 16)) = true :=
    isLowerHexDigit_hexDigit (by omega)
  have d4 : isLowerHexDigit (hexDigit (c.2.1.toNat % 16)) = true :=
    isLowerHexDigit_hexDigit (by omega)
  have d5 : isLowerHexDigit (hexDigit (c.2.2.toNat / 16)) = true :=
    isLowerHexDigit_hexDigit (by omega)
  have d6 : isLowerHexDigit (hexDigit (c.2.2.toNat % 16)) = true :=
    isLowerHexDigit_hexDigit (by omega)
  unfold ValidHex
  rw [data_rgb_to_hex]
  simp [d1, d2, d3, d4, d5, d6]

lemma headD_mem {α : Type} {l : List α} (d : α) (h : l ≠ []) : l.headD d ∈ l := by
  cases l with
  | nil => exact absurd rfl h
  | cons a t => exact List.mem_cons_self a t

lemma getLastD_mem {α : Type} : ∀ (l : List α) (d : α), l ≠ [] → l.getLastD d ∈ l
  | [a], _, _ => by simp
  | a :: b :: t, d, _ => by
    rw [List.getLastD_cons]
    exact List.mem_cons_of_mem a (getLastD_mem (b :: t) a (by simp))

lemma getD_mem {α : Type} {l : List α} {i : ℕ} (d : α) (h : i < l.length) : l.getD i d ∈ l := by
  rw [List.getD_eq_getElem l d h]
  exact List.getElem_mem h

lemma brightenColor_InRange {c : Color} {k : ℤ} (h : InRange c) (hk : 0 ≤ k) :
    InRange (brightenColor c k) := by
  obtain ⟨h1, h2, h3, h4, h5, h6⟩ := h
  unfold brightenColor
  refine ⟨le_min (by norm_num) (by omega), min_le_left _ _,
    le_min (by norm_num) (by omega), min_le_left _ _,
    le_min (by norm_num) (by omega), min_le_left _ _⟩

lemma get_color_InRange {palette : List Color} (h : ∀ c ∈ palette, InRange c)
    (hne : palette ≠ []) (idx : ℕ) (default : Color) {b : ℤ} (hb : 0 ≤ b) :
    InRange (get_color palette idx default b) := by
  have hlen : 0 < palette.length := List.length_pos.2 hne
  have hbase : (if idx < palette.length then palette.getD idx (0, 0, 0)
      else palette.getD (idx % palette.length) (0, 0, 0)) ∈ palette := by
    split
    · next hi => exact getD_mem _ hi
    · exact getD_mem _ (Nat.mod_lt _ hlen)
  show InRange (if 0 < b then
    brightenColor (if idx < palette.length then palette.getD idx (0, 0, 0)
      else palette.getD (idx % palette.length) (0, 0, 0)) b
    else (if idx < palette.length then palette.getD idx (0, 0, 0)
      else palette.getD (idx % palette.length) (0, 0, 0)))
  split
  · exact brightenColor_InRange (h _ hbase) hb
  · exact h _ hbase

/-- C3: for every palette of at least two in-range colors,
`generate_terminal_colors` succeeds and yields exactly the 22 keys
color0..color15, background, foreground, cursor, cursor_text_color,
selection_background, selection_foreground, each bound to a lowercase
`#rrggbb` string; wrap-around indexing leaves no key unset. -/
theorem generate_terminal_colors_complete (palette : List Color)
    (hlen : 2 ≤ palette.length) (h : ∀ c ∈ palette, InRange c) :
    ∃ m : Scheme, generate_terminal_colors palette = some m ∧
      m.map Prod.fst = ["color0", "color1", "color2", "color3", "color4", "color5",
        "color6", "color7", "color8", "color9", "color10", "color11", "color12",
        "color13", "color14", "color15", "background", "foreground", "cursor",
        "cursor_text_color", "selection_background", "selection_foreground"] ∧
      ∀ kv ∈ m, ValidHex kv.2 = true := by
  have hperm := List.mergeSort_perm palette lumLE
  have hslen : (palette.mergeSort lumLE).length = palette.length := hperm.length_eq
  have hsne : palette.mergeSort lumLE ≠ [] := by
    intro hcon
    rw [hcon] at hslen
    simp at hslen
    omega
  have hne : palette ≠ [] := by
    intro hcon
    subst hcon
    simp at hlen
  have hbg : InRange ((palette.mergeSort lumLE).headD (0, 0, 0)) :=
    h _ (hperm.mem_iff.1 (headD_mem _ hsne))
  have hfg : InRange ((palette.mergeSort lumLE).getLastD (0, 0, 0)) :=
    h _ (hperm.mem_iff.1 (getLastD_mem _ _ hsne))
  unfold generate_terminal_colors
  rw [if_neg (by omega)]
  refine ⟨_, rfl, rfl, ?_⟩
  intro kv hkv
  simp only [List.mem_cons, List.not_mem_nil, or_false] at hkv
  rcases hkv with rfl | rfl | rfl | rfl | rfl | rfl | rfl | rfl | rfl | rfl | rfl | rfl |
    rfl | rfl | rfl | rfl | rfl | rfl | rfl | rfl | rfl | rfl <;>
    apply ValidHex_rgb_to_hex <;>
    first
      | exact hbg
      | exact hfg
      | exact get_color_InRange h hne _ _ (by norm_num)
      | exact brightenColor_InRange hbg (by norm_num)
      | exact brightenColor_InRange hfg (by norm_num)

/-- Witness for C3 at the two-color palette [(10,10,10), (240,240,240)]. -/
theorem generate_terminal_colors_complete_witness :
    ∃ m : Scheme, generate_terminal_colors [(10, 10, 10), (240, 240, 240)] = some m ∧
      m.map Prod.fst = ["color0", "color1", "color2", "color3", "color4", "color5",
        "color6", "color7", "color8", "color9", "color10", "color11", "color12",
        "color13", "color14", "color15", "background", "foreground", "cursor",
        "cursor_text_color", "selection_background", "selection_foreground"] ∧
      ∀ kv ∈ m, ValidHex kv.2 = true :=
  generate_terminal_colors_complete [(10, 10, 10), (240, 240, 240)] (by decide) (by decide)

lemma hex_to_rgb_rgb_to_hex {c : Color} (h : InRange c) : hex_to_rgb (rgb_to_hex c) = c := by
  obtain ⟨r, g, b⟩ := c
  obtain ⟨h1, h2, h3, h4, h5, h6⟩ := h
  replace h1 : 0 ≤ r := h1
  replace h2 : r ≤ 255 := h2
  replace h3 : 0 ≤ g := h3
  replace h4 : g ≤ 255 := h4
  replace h5 : 0 ≤ b := h5
  replace h6 : b ≤ 255 := h6
  unfold hex_to_rgb
  rw [data_rgb_to_hex]
  rw [List.dropWhile_cons_of_pos (by decide), List.dropWhile_cons_of_neg
    (by simpa using hexDigit_ne_hash (n := r.toNat / 16) (by omega))]
  simp only [List.getD, List.get?_cons_zero, List.get?_cons_succ, Option.getD_some]
  rw [hexVal_hexDigit (by omega), hexVal_hexDigit (by omega), hexVal_hexDigit (by omega),
    hexVal_hexDigit (by omega), hexVal_hexDigit (by omega), hexVal_hexDigit (by omega)]
  simp only [Prod.mk.injEq]
  refine ⟨?_, ?_, ?_⟩ <;> omega

/-- C10: the contrast ratio of any in-range color with itself is exactly 1
(below the 4.5 minimum); `generate_terminal_colors` binds color0 and
background to the same value; and whenever the scheme maps color0 to the hex
form of the background itself, `ensure_readable_colors` takes the correction
branch for color0, so the emitted color0 is the contrast-corrected color. -/
theorem color0_always_corrected :
    (∀ A : Color, InRange A → get_contrast_ratio A A = 1) ∧
      (∀ (palette : List Color) (m : Scheme), generate_terminal_colors palette = some m →
        m.lookup "color0" = m.lookup "background") ∧
      (∀ (bg : Color) (m : Scheme), InRange bg →
        m.lookup "color0" = some (rgb_to_hex bg) →
        (ensure_readable_colors m bg).lookup "color0" =
          some (rgb_to_hex (adjust_color_for_contrast bg bg 4.5 (lighten_for bg)))) := by
  refine ⟨fun A hA => contrast_ratio_self hA, ?_, ?_⟩
  · intro palette m hm
    unfold generate_terminal_colors at hm
    by_cases hl : palette.length < 2
    · rw [if_pos hl] at hm
      exact absurd hm (by simp)
    · rw [if_neg hl] at hm
      injection hm with hm
      subst hm
      rfl
  · intro bg m hbg hm
    rw [lookup_ensure_readable, hm, Option.map_some']
    have hval : ensure_value bg "color0" (rgb_to_hex bg) =
        rgb_to_hex (adjust_color_for_contrast bg bg 4.5 (lighten_for bg)) := by
      unfold ensure_value
      rw [if_pos (Or.inl (by decide)), hex_to_rgb_rgb_to_hex hbg,
        if_pos (by rw [contrast_ratio_self hbg]; norm_num)]
    rw [hval]

/-- Witness for C10 at the background (0,0,0) and the one-entry scheme binding
color0 to its hex form. -/
theorem color0_always_corrected_witness :
    (ensure_readable_colors [("color0", rgb_to_hex (0, 0, 0))] (0, 0, 0)).lookup "color0" =
      some (rgb_to_hex (adjust_color_for_contrast (0, 0, 0) (0, 0, 0) 4.5
        (lighten_for (0, 0, 0)))) :=
  color0_always_corrected.2.2 (0, 0, 0) [("color0", rgb_to_hex (0, 0, 0))] (by decide) rfl

lemma rpow_bound_low : (0.8713 : ℝ) ≤ ((3387 / 3587 : ℝ)) ^ (2.4 : ℝ) := by
  have hx : (0 : ℝ) ≤ 3387 / 3587 := by norm_num
  have hy : (0 : ℝ) ≤ ((3387 / 3587 : ℝ)) ^ (2.4 : ℝ) := Real.rpow_nonneg hx _
  have key : (((3387 / 3587 : ℝ)) ^ (2.4 : ℝ)) ^ (5 : ℕ) = ((3387 / 3587 : ℝ)) ^ (12 : ℕ) := by
    rw [← Real.rpow_natCast (((3387 / 3587 : ℝ)) ^ (2.4 : ℝ)) 5, ← Real.rpow_mul hx]
    have h24 : (2.4 : ℝ) * ((5 : ℕ) : ℝ) = ((12 : ℕ) : ℝ) := by norm_num
    rw [h24, Real.rpow_natCast]
  rw [← pow_le_pow_iff_left₀ (by norm_num : (0 : ℝ) ≤ 0.8713) hy
    (by norm_num : (5 : ℕ) ≠ 0), key]
  norm_num

lemma rpow_bound_high : ((3387 / 3587 : ℝ)) ^ (2.4 : ℝ) ≤ 0.8714 := by
  have hx : (0 : ℝ) ≤ 3387 / 3587 := by norm_num
  have hy : (0 : ℝ) ≤ ((3387 / 3587 : ℝ)) ^ (2.4 : ℝ) := Real.rpow_nonneg hx _
  have key : (((3387 / 3587 : ℝ)) ^ (2.4 : ℝ)) ^ (5 : ℕ) = ((3387 / 3587 : ℝ)) ^ (12 : ℕ) := by
    rw [← Real.rpow_natCast (((3387 / 3587 : ℝ)) ^ (2.4 : ℝ)) 5, ← Real.rpow_mul hx]
    have h24 : (2.4 : ℝ) * ((5 : ℕ) : ℝ) = ((12 : ℕ) : ℝ) := by norm_num
    rw [h24, Real.rpow_natCast]
  rw [← pow_le_pow_iff_left₀ hy (by norm_num : (0 : ℝ) ≤ 0.8714)
    (by norm_num : (5 : ℕ) ≠ 0), key]
  norm_num

lemma lum_240_bounds :
    0.8713 ≤ get_luminance (240, 240, 240) ∧ get_luminance (240, 240, 240) ≤ 0.8714 := by
  have hg : gammaExpand ((240 : ℝ) / 255) = ((3387 / 3587 : ℝ)) ^ (2.4 : ℝ) := by
    unfold gammaExpand
    rw [if_neg (by norm_num)]
    congr 1
    norm_num
  have hlum : get_luminance (240, 240, 240) =
      0.2126 * gammaExpand ((240 : ℝ) / 255) + 0.7152 * gammaExpand ((240 : ℝ) / 255) +
        0.0722 * gammaExpand ((240 : ℝ) / 255) := by
    unfold get_luminance
    norm_num
  have hone : get_luminance (240, 240, 240) = ((3387 / 3587 : ℝ)) ^ (2.4 : ℝ) := by
    rw [hlum, hg]
    ring
  rw [hone]
  exact ⟨rpow_bound_low, rpow_bound_high⟩

lemma lum_10_eq : get_luminance (10, 10, 10) = 50 / 16473 := by
  have hg : gammaExpand ((10 : ℝ) / 255) = 50 / 16473 := by
    unfold gammaExpand
    rw [if_pos (by norm_num)]
    norm_num
  have hlum : get_luminance (10, 10, 10) =
      0.2126 * gammaExpand ((10 : ℝ) / 255) + 0.7152 * gammaExpand ((10 : ℝ) / 255) +
        0.0722 * gammaExpand ((10 : ℝ) / 255) := by
    unfold get_luminance
    norm_num
  rw [hlum, hg]
  norm_num

lemma ratio_240_10_bounds :
    17.3 < get_contrast_ratio (240, 240, 240) (10, 10, 10) ∧
      get_contrast_ratio (240, 240, 240) (10, 10, 10) < 17.45 := by
  obtain ⟨hl, hu⟩ := lum_240_bounds
  have h10 := lum_10_eq
  unfold get_contrast_ratio
  rw [max_eq_left (by rw [h10]; linarith), min_eq_right (by rw [h10]; linarith), h10]
  constructor
  · rw [lt_div_iff₀ (by norm_num)]
    linarith
  · rw [div_lt_iff₀ (by norm_num)]
    linarith

/-- C5 counterexample: for foreground (240,240,240) = #f0f0f0 against
background (10,10,10) = #0a0a0a, the contrast ratio computed by
`get_contrast_ratio` is not within 0.5 of 16.8: it exceeds 17.3. -/
theorem contrast_ratio_not_approx_16_8 :
    ¬ |get_contrast_ratio (240, 240, 240) (10, 10, 10) - 16.8| < 0.5 := by
  obtain ⟨hl, _⟩ := ratio_240_10_bounds
  intro h
  rw [abs_lt] at h
  linarith [h.2]

/-- C5 amended: the contrast ratio of (240,240,240) against (10,10,10) is
approximately 17.37 (strictly between 17.3 and 17.45), and since it exceeds
4.5 no correction is triggered for the foreground entry. -/
theorem contrast_ratio_fg_bg_no_correction :
    17.3 < get_contrast_ratio (240, 240, 240) (10, 10, 10) ∧
      get_contrast_ratio (240, 240, 240) (10, 10, 10) < 17.45 ∧
      ensure_value (10, 10, 10) "foreground" (rgb_to_hex (240, 240, 240)) =
        rgb_to_hex (240, 240, 240) := by
  obtain ⟨hl, hu⟩ := ratio_240_10_bounds
  refine ⟨hl, hu, ?_⟩
  unfold ensure_value
  rw [if_pos (Or.inr rfl)]
  show (if get_contrast_ratio (hex_to_rgb (rgb_to_hex (240, 240, 240))) (10, 10, 10) < 4.5
      then rgb_to_hex (adjust_color_for_contrast (hex_to_rgb (rgb_to_hex (240, 240, 240)))
        (10, 10, 10) 4.5 (lighten_for (10, 10, 10)))
      else rgb_to_hex (240, 240, 240)) = rgb_to_hex (240, 240, 240)
  rw [hex_to_rgb_rgb_to_hex (by decide), if_neg (by intro hc; linarith)]

end PaletteGen
